import Mathlib

/-!
Shallow embedding of the Mechanic-Shop REST service's business layer.

Each definition mirrors one handler or model method of the repository:
`application/models.py`, `application/blueprints/inventory/routes.py`,
`application/blueprints/service_ticket/routes.py`,
`application/blueprints/customer/routes.py`,
`application/blueprints/auth/routes.py`,
`application/blueprints/mechanic/routes.py`.
HTTP parsing, marshmallow schema shape checks and JWT verification are
framework concerns outside the embedded layer; handlers are modelled from
the point where their typed inputs are available, and every branch of the
handler bodies (lookups, duplicate checks, arithmetic, mutations) is kept.
-/

namespace MechShop

/-- Row of the `parts` table (`application/models.py`, class `Part`). -/
structure Part where
  part_id : Nat
  part_number : String
  current_cost_cents : Int
  quantity_in_stock : Int
  reorder_level : Int
deriving Repr, DecidableEq

/-- Row of the `ticket_parts` junction table (`application/models.py`,
class `TicketPart`). -/
structure TicketPart where
  ticket_id : Nat
  part_id : Nat
  quantity_used : Int
  unit_cost_cents : Int
  markup_percentage : ℚ
  warranty_months : Option Int
  installed_by_mechanic_id : Option Nat
deriving Repr, DecidableEq

/-- Row of the `ticket_mechanics` junction table (`application/models.py`,
class `TicketMechanic`). -/
structure TicketMechanic where
  ticket_id : Nat
  mechanic_id : Nat
  role : String
  minutes_worked : Int
deriving Repr, DecidableEq

/-- Row of the `mechanics` table (`application/models.py`, class `Mechanic`). -/
structure Mechanic where
  mechanic_id : Nat
  full_name : String
  email : String
  phone : String
  salary : Int
  is_active : Bool
deriving Repr, DecidableEq

/-- Row of the `customers` table (`application/models.py`, class `Customer`);
only the fields the embedded handlers consult. -/
structure Customer where
  customer_id : Nat
  email : String
  password_hash : String
deriving Repr, DecidableEq

/-- Row of the `vehicles` table (`application/models.py`, class `Vehicle`). -/
structure Vehicle where
  vehicle_id : Nat
  customer_id : Nat
  vin : String
  make : String
  model : String
  year : Int
  color : String
deriving Repr, DecidableEq

/-- Database state: one list per table touched by the embedded handlers.
Tickets are identified by id; the handlers only check ticket existence. -/
structure DB where
  tickets : List Nat
  mechanics : List Mechanic
  parts : List Part
  ticketMechanics : List TicketMechanic
  ticketParts : List TicketPart
deriving Repr, DecidableEq

/-- `db.session.get(Part, part_id)`: primary-key lookup. -/
def findPart (parts : List Part) (part_id : Nat) : Option Part :=
  parts.find? (fun p => p.part_id == part_id)

/-- Mutation of the single ORM object returned by the primary-key lookup:
replace the first row with the given id. -/
def updateFirstPart (parts : List Part) (part_id : Nat) (f : Part → Part) :
    List Part :=
  match parts with
  | [] => []
  | p :: ps =>
    if p.part_id == part_id then f p :: ps
    else p :: updateFirstPart ps part_id f

/-- Outcome of `adjust_part_quantity` with the HTTP status and message of
each branch of `inventory/routes.py`. -/
inductive AdjustResult where
  | partNotFound
  | wouldGoNegative
  | ok (previous_quantity new_quantity : Int)
deriving Repr, DecidableEq

/-- PATCH `/inventory/(part_id)/adjust-quantity`
(`inventory/routes.py`, `adjust_part_quantity`), from the point where
`adjustment` has been parsed as an integer. -/
def adjust_part_quantity (db : DB) (part_id : Nat) (adjustment : Int) :
    AdjustResult × DB :=
  match findPart db.parts part_id with
  | none => (.partNotFound, db)
  | some part =>
    if part.quantity_in_stock + adjustment < 0 then (.wouldGoNegative, db)
    else
      (.ok part.quantity_in_stock (part.quantity_in_stock + adjustment),
        { db with
          parts := updateFirstPart db.parts part_id
            (fun p =>
              { p with quantity_in_stock :=
                  part.quantity_in_stock + adjustment }) })

/-- Outcome taxonomy shared by the ownership-checked customer handlers
(`customer/routes.py`): 403, 404, 400, 200. -/
inductive CustomerOutcome where
  | forbidden
  | notFound
  | badRequest
  | ok
deriving Repr, DecidableEq

/-- PUT `/customers/(customer_id)` (`customer/routes.py`, `update_customer`):
ownership check first, then existence, then payload checks (collapsed into
a single `body_ok` flag for the schema-validation branch). -/
def update_customer (customers : List Customer)
    (current_user_id customer_id : Nat) (body_ok : Bool) : CustomerOutcome :=
  if current_user_id ≠ customer_id then .forbidden
  else
    match customers.find? (fun c => c.customer_id == customer_id) with
    | none => .notFound
    | some _ => if body_ok then .ok else .badRequest

/-- DELETE `/customers/(customer_id)` (`customer/routes.py`,
`delete_customer`): ownership check first, then existence. -/
def delete_customer (customers : List Customer)
    (current_user_id customer_id : Nat) : CustomerOutcome :=
  if current_user_id ≠ customer_id then .forbidden
  else
    match customers.find? (fun c => c.customer_id == customer_id) with
    | none => .notFound
    | some _ => .ok

/-- Outcome of POST `/auth/login` (`auth/routes.py`, `login`); the failure
constructor carries the exact response body and status produced. -/
inductive LoginResult where
  | invalidCredentials (error : String) (status : Nat)
  | success (customer_id : Nat)
deriving Repr, DecidableEq

/-- POST `/auth/login` (`auth/routes.py`, `login`), after schema validation.
`check` stands for the external `check_password_hash(hash, password)`. -/
def login (customers : List Customer) (check : String → String → Bool)
    (email password : String) : LoginResult :=
  match customers.find? (fun c => c.email == email) with
  | none => .invalidCredentials "Invalid email or password" 401
  | some customer =>
    if check customer.password_hash password then
      .success customer.customer_id
    else .invalidCredentials "Invalid email or password" 401

/-- Typed request body of POST
`/service_tickets/(ticket_id)/parts/(part_id)`: `quantity_used` after the
`int(...)` conversion, `markup_percentage` after the `get(..., 30.0)`
default, and the two optional fields. -/
structure AttachBody where
  quantity_used : Int
  markup_percentage : ℚ
  warranty_months : Option Int
  installed_by_mechanic_id : Option Nat
deriving Repr, DecidableEq

/-- Outcome of `add_part_to_ticket` with one constructor per response
branch of `service_ticket/routes.py`. -/
inductive AttachResult where
  | ticketNotFound
  | partNotFound
  | alreadyAdded
  | nonPositiveQuantity
  | insufficientStock (requested available : Int)
  | mechanicNotFound (mechanic_id : Nat)
  | ok (tp : TicketPart) (remaining_stock : Int)
deriving Repr, DecidableEq

/-- Lookup of a (ticket, part) association row
(`select(TicketPart).where(...)`, `scalar_one_or_none`). -/
def findTicketPart (tps : List TicketPart) (ticket_id part_id : Nat) :
    Option TicketPart :=
  tps.find? (fun tp => tp.ticket_id == ticket_id && tp.part_id == part_id)

/-- The guard `if installed_by_mechanic_id:` followed by `if not mechanic:`
of `add_part_to_ticket`: Python truthiness, so the lookup only happens for
a present non-zero id, and the branch fires when that lookup misses. -/
def mechanicTruthyMissing (mechanics : List Mechanic)
    (o : Option Nat) : Bool :=
  match o with
  | some mid => mid != 0 &&
      (mechanics.find? (fun m => m.mechanic_id == mid)).isNone
  | none => false

/-- POST `/service_tickets/(ticket_id)/parts/(part_id)`
(`service_ticket/routes.py`, `add_part_to_ticket`), check for check in the
order of the handler: ticket lookup, part lookup, duplicate association,
positive quantity, sufficient stock, optional installing mechanic; on
success the association is inserted with the part's current cost as
snapshot and the part's stock is decremented. -/
def add_part_to_ticket (db : DB) (ticket_id part_id : Nat)
    (body : AttachBody) : AttachResult × DB :=
  if ¬ db.tickets.contains ticket_id then (.ticketNotFound, db)
  else
    match findPart db.parts part_id with
    | none => (.partNotFound, db)
    | some part =>
      if (findTicketPart db.ticketParts ticket_id part_id).isSome then
        (.alreadyAdded, db)
      else if body.quantity_used ≤ 0 then (.nonPositiveQuantity, db)
      else if part.quantity_in_stock < body.quantity_used then
        (.insufficientStock body.quantity_used part.quantity_in_stock, db)
      -- `if installed_by_mechanic_id:` — Python truthiness, so the
      -- mechanic lookup runs only for a present non-zero id
      else if mechanicTruthyMissing db.mechanics
          body.installed_by_mechanic_id then
        (.mechanicNotFound (body.installed_by_mechanic_id.getD 0), db)
      else
        (.ok
          ⟨ticket_id, part_id, body.quantity_used, part.current_cost_cents,
            body.markup_percentage, body.warranty_months,
            body.installed_by_mechanic_id⟩
          (part.quantity_in_stock - body.quantity_used),
          { db with
            parts := updateFirstPart db.parts part_id
              (fun p =>
                { p with quantity_in_stock :=
                    p.quantity_in_stock - body.quantity_used })
            ticketParts := db.ticketParts ++
              [⟨ticket_id, part_id, body.quantity_used,
                part.current_cost_cents, body.markup_percentage,
                body.warranty_months, body.installed_by_mechanic_id⟩] })

/-- One successful-or-attempted call of the two stock-mutating endpoints;
the state effect of a failed call is the identity, so folding `applyOp`
over a list covers every sequence of successful calls. -/
inductive InvOp where
  | adjust (part_id : Nat) (adjustment : Int)
  | attach (ticket_id part_id : Nat) (body : AttachBody)
deriving Repr, DecidableEq

/-- State reached after one (attempted) stock-mutating call. -/
def applyOp (db : DB) (op : InvOp) : DB :=
  match op with
  | .adjust pid adj => (adjust_part_quantity db pid adj).2
  | .attach tid pid body => (add_part_to_ticket db tid pid body).2

/-- State reached after a sequence of (attempted) stock-mutating calls. -/
def applyOps (db : DB) (ops : List InvOp) : DB := ops.foldl applyOp db

/-- Typed request body of PUT `/service_tickets/(ticket_id)/edit` after
`EditTicketMechanicsSchema.load` (defaults: empty lists, role
"Technician", 0 minutes). -/
structure EditBody where
  add_ids : List Nat
  remove_ids : List Nat
  role : String
  minutes_worked : Int
deriving Repr, DecidableEq

/-- Lookup of a (ticket, mechanic) association row
(`select(TicketMechanic).where(...)`, `scalar_one_or_none`). -/
def findTicketMechanic (tms : List TicketMechanic)
    (ticket_id mechanic_id : Nat) : Option TicketMechanic :=
  tms.find? (fun tm =>
    tm.ticket_id == ticket_id && tm.mechanic_id == mechanic_id)

/-- Deletion of the association row found by `findTicketMechanic`
(`db.session.delete` of the single selected row). -/
def eraseTicketMechanic (tms : List TicketMechanic)
    (ticket_id mechanic_id : Nat) : List TicketMechanic :=
  tms.eraseP (fun tm =>
    tm.ticket_id == ticket_id && tm.mechanic_id == mechanic_id)

/-- First loop of `edit_ticket_mechanics`: for each id of `remove_ids`, in
order, delete the association when present (recording the id) or record
an error message. Returns (association table, removed ids, errors). -/
def removePhase (tms : List TicketMechanic) (ticket_id : Nat) :
    List Nat → List TicketMechanic × List Nat × List String
  | [] => (tms, [], [])
  | mechanic_id :: rest =>
    match findTicketMechanic tms ticket_id mechanic_id with
    | some _ =>
      let r := removePhase (eraseTicketMechanic tms ticket_id mechanic_id)
        ticket_id rest
      (r.1, mechanic_id :: r.2.1, r.2.2)
    | none =>
      let r := removePhase tms ticket_id rest
      (r.1, r.2.1,
        (s!"Mechanic {mechanic_id} is not assigned to this ticket") :: r.2.2)

/-- Second loop of `edit_ticket_mechanics`: for each id of `add_ids`, in
order, record an error when the mechanic does not exist or is already
assigned, otherwise insert the association with the batch's role and
minutes. Returns (association table, added ids, errors). -/
def addPhase (mechanics : List Mechanic) (tms : List TicketMechanic)
    (ticket_id : Nat) (role : String) (minutes_worked : Int) :
    List Nat → List TicketMechanic × List Nat × List String
  | [] => (tms, [], [])
  | mechanic_id :: rest =>
    if (mechanics.find? (fun m => m.mechanic_id == mechanic_id)).isNone then
      let r := addPhase mechanics tms ticket_id role minutes_worked rest
      (r.1, r.2.1, (s!"Mechanic {mechanic_id} does not exist") :: r.2.2)
    else if (findTicketMechanic tms ticket_id mechanic_id).isSome then
      let r := addPhase mechanics tms ticket_id role minutes_worked rest
      (r.1, r.2.1,
        (s!"Mechanic {mechanic_id} is already assigned to this ticket")
          :: r.2.2)
    else
      let r := addPhase mechanics
        (tms ++ [⟨ticket_id, mechanic_id, role, minutes_worked⟩])
        ticket_id role minutes_worked rest
      (r.1, mechanic_id :: r.2.1, r.2.2)

/-- Outcome of `edit_ticket_mechanics`: 404 when the ticket is missing,
otherwise HTTP 200 with the three response lists. -/
inductive EditResult where
  | ticketNotFound
  | ok (added_mechanics removed_mechanics : List Nat) (errors : List String)
deriving Repr, DecidableEq

/-- PUT `/service_tickets/(ticket_id)/edit` (`service_ticket/routes.py`,
`edit_ticket_mechanics`): remove loop first, then add loop, errors of
both loops collected in order into one list; always HTTP 200 once the
ticket was found. -/
def edit_ticket_mechanics (db : DB) (ticket_id : Nat) (body : EditBody) :
    EditResult × DB :=
  if ¬ db.tickets.contains ticket_id then (.ticketNotFound, db)
  else
    let r := removePhase db.ticketMechanics ticket_id body.remove_ids
    let a := addPhase db.mechanics r.1 ticket_id body.role
      body.minutes_worked body.add_ids
    (.ok a.2.1 r.2.1 (r.2.2 ++ a.2.2),
      { db with ticketMechanics := a.1 })

/-- Typed request body of POST `/customers/(customer_id)/vehicles`: the
payload may itself carry a `customer_id` value. -/
structure VehiclePayload where
  customer_id : Option Nat
  vin : String
  make : String
  model : String
  year : Int
  color : String
deriving Repr, DecidableEq

/-- Outcome of `create_vehicle` with one constructor per response branch
of `customer/routes.py`. -/
inductive CreateVehicleResult where
  | forbidden
  | customerNotFound
  | vinExists
  | created (v : Vehicle)
deriving Repr, DecidableEq

/-- POST `/customers/(customer_id)/vehicles` (`customer/routes.py`,
`create_vehicle`): ownership check, customer lookup, then
`request_data['customer_id'] = customer_id` overwrites any payload value
with the path parameter before validation, VIN-uniqueness check, insert.
The auto-increment primary key is modelled as the next list index. -/
def create_vehicle (customers : List Customer) (vehicles : List Vehicle)
    (current_user_id customer_id : Nat) (payload : VehiclePayload) :
    CreateVehicleResult × List Vehicle :=
  if current_user_id ≠ customer_id then (.forbidden, vehicles)
  else if (customers.find? (fun c => c.customer_id == customer_id)).isNone
    then (.customerNotFound, vehicles)
  else
    let request_data : VehiclePayload :=
      { payload with customer_id := some customer_id }
    if (vehicles.find? (fun v => v.vin == request_data.vin)).isSome then
      (.vinExists, vehicles)
    else
      let v : Vehicle :=
        { vehicle_id := vehicles.length + 1
          customer_id := request_data.customer_id.getD customer_id
          vin := request_data.vin
          make := request_data.make
          model := request_data.model
          year := request_data.year
          color := request_data.color }
      (.created v, vehicles ++ [v])

/-- Round-half-to-even on rationals: the semantics of Python's built-in
`round` on an exactly representable value. -/
def pyRoundInt (x : ℚ) : ℤ :=
  let f := ⌊x⌋
  if x - f < 1/2 then f
  else if 1/2 < x - f then f + 1
  else if f % 2 = 0 then f else f + 1

/-- Python's `round(x, 2)`: round to two decimal places. -/
def pyRound2 (x : ℚ) : ℚ := (pyRoundInt (x * 100) : ℚ) / 100

/-- Method `TicketPart.get_total_cost` (`application/models.py`): base
cost in currency units, markup as a percentage of the base, rounded to
two decimals. -/
def TicketPart.get_total_cost (tp : TicketPart) : ℚ :=
  let base_cost := ((tp.quantity_used * tp.unit_cost_cents : Int) : ℚ) / 100
  let markup := base_cost * (tp.markup_percentage / 100)
  pyRound2 (base_cost + markup)

/-- Modelled from the spec (sentence of §3 on TicketPart): total cost =
base cost (quantity × unit cost, in currency units) plus
`markup_percentage` percent of that base, rounded to two decimal
places. Stated independently of the source method, for comparison. -/
def specTotalCost (tp : TicketPart) : ℚ :=
  let base : ℚ := (tp.quantity_used : ℚ) * ((tp.unit_cost_cents : ℚ) / 100)
  pyRound2 (base + tp.markup_percentage / 100 * base)

/-- Serialized entry of the mechanics-by-activity listing
(`mechanic/routes.py`, response dict of `get_mechanics_by_activity`). -/
structure ActivityEntry where
  mechanic_id : Nat
  full_name : String
  email : String
  phone : String
  salary : Int
  is_active : Bool
  ticket_count : Nat
deriving Repr, DecidableEq

/-- `len(mechanic.ticket_mechanics)`: number of association rows of one
mechanic. -/
def ticketCount (tms : List TicketMechanic) (m : Mechanic) : Nat :=
  tms.countP (fun tm => tm.mechanic_id == m.mechanic_id)

/-- The comparator of `mechanics_list.sort(key=..., reverse=(order ==
'desc'))`: Python's sort is stable, and `reverse=True` is a stable
descending sort by the key. -/
def activityLe (tms : List TicketMechanic) (order : String)
    (a b : Mechanic) : Bool :=
  if order == "desc" then ticketCount tms b ≤ ticketCount tms a
  else ticketCount tms a ≤ ticketCount tms b

/-- Loading and sorting steps of `get_mechanics_by_activity`
(`mechanic/routes.py`): optional active-only filter applied before the
stable in-memory sort by association count. -/
def sortMechanicsByActivity (mechanics : List Mechanic)
    (tms : List TicketMechanic) (order : String) (active_only : Bool) :
    List Mechanic :=
  let loaded := if active_only then mechanics.filter (fun m => m.is_active)
    else mechanics
  loaded.mergeSort (activityLe tms order)

/-- GET `/mechanics/by-activity` (`mechanic/routes.py`,
`get_mechanics_by_activity`): the response list, one entry per sorted
mechanic with its computed `ticket_count`. -/
def get_mechanics_by_activity (mechanics : List Mechanic)
    (tms : List TicketMechanic) (order : String) (active_only : Bool) :
    List ActivityEntry :=
  (sortMechanicsByActivity mechanics tms order active_only).map
    (fun m =>
      { mechanic_id := m.mechanic_id
        full_name := m.full_name
        email := m.email
        phone := m.phone
        salary := m.salary
        is_active := m.is_active
        ticket_count := ticketCount tms m })

/-! Helper lemmas about the primary-key update of the parts table. -/

lemma findPart_updateFirstPart (l : List Part) (pid : Nat) (f : Part → Part)
    (hf : ∀ p, (f p).part_id = p.part_id) :
    findPart (updateFirstPart l pid f) pid = (findPart l pid).map f := by
  induction l with
  | nil => simp [findPart, updateFirstPart]
  | cons p ps ih =>
    by_cases h : (p.part_id == pid) = true
    · simp [findPart, updateFirstPart, List.find?_cons, h, hf]
    · simpa [findPart, updateFirstPart, List.find?_cons, h] using ih

lemma mem_updateFirstPart {l : List Part} {pid : Nat} {f : Part → Part}
    {x : Part} (hx : x ∈ updateFirstPart l pid f) :
    x ∈ l ∨ ∃ p, findPart l pid = some p ∧ x = f p := by
  induction l with
  | nil => simp [updateFirstPart] at hx
  | cons p ps ih =>
    by_cases h : (p.part_id == pid) = true
    · rw [updateFirstPart, if_pos h] at hx
      rcases List.mem_cons.mp hx with h1 | h1
      · exact Or.inr ⟨p, by simp [findPart, List.find?_cons, h], h1⟩
      · exact Or.inl (List.mem_cons_of_mem _ h1)
    · rw [updateFirstPart, if_neg h] at hx
      rcases List.mem_cons.mp hx with h1 | h1
      · exact Or.inl (by simp [h1])
      · rcases ih h1 with h2 | ⟨q, hq, hxq⟩
        · exact Or.inl (List.mem_cons_of_mem _ h2)
        · refine Or.inr ⟨q, ?_, hxq⟩
          simp [findPart, List.find?_cons, h]
          exact hq

/-- C3: for every part and integer delta, `adjust_part_quantity` computes
new_quantity = quantity_in_stock + delta; when new_quantity < 0 it fails
with the would-go-negative error and leaves the state unchanged, and
otherwise it reports the previous and new quantity and sets the part's
quantity_in_stock to new_quantity. -/
theorem adjust_part_quantity_spec (db : DB) (pid : Nat) (delta : Int)
    (part : Part) (hfind : findPart db.parts pid = some part) :
    (part.quantity_in_stock + delta < 0 →
      adjust_part_quantity db pid delta = (.wouldGoNegative, db)) ∧
    (0 ≤ part.quantity_in_stock + delta →
      (adjust_part_quantity db pid delta).1 =
        .ok part.quantity_in_stock (part.quantity_in_stock + delta) ∧
      findPart (adjust_part_quantity db pid delta).2.parts pid =
        some { part with
          quantity_in_stock := part.quantity_in_stock + delta }) := by
  constructor
  · intro h
    simp [adjust_part_quantity, hfind, h]
  · intro h
    have hnot : ¬ part.quantity_in_stock + delta < 0 := by omega
    constructor
    · simp [adjust_part_quantity, hfind, hnot]
    · simp only [adjust_part_quantity, hfind, if_neg hnot]
      rw [findPart_updateFirstPart db.parts pid
        (fun p =>
          { p with quantity_in_stock := part.quantity_in_stock + delta })
        (fun p => rfl), hfind]
      rfl

/-- C3 witness: a concrete part with stock 3; delta -4 is rejected with no
effect and delta -3 succeeds, leaving stock 0. -/
theorem adjust_part_quantity_spec_witness :
    adjust_part_quantity ⟨[], [], [⟨1, "P-1", 1000, 3, 5⟩], [], []⟩ 1 (-4) =
      (.wouldGoNegative, ⟨[], [], [⟨1, "P-1", 1000, 3, 5⟩], [], []⟩) ∧
    findPart
      (adjust_part_quantity ⟨[], [], [⟨1, "P-1", 1000, 3, 5⟩], [], []⟩ 1
        (-3)).2.parts 1 = some ⟨1, "P-1", 1000, 0, 5⟩ :=
  ⟨(adjust_part_quantity_spec ⟨[], [], [⟨1, "P-1", 1000, 3, 5⟩], [], []⟩ 1
      (-4) ⟨1, "P-1", 1000, 3, 5⟩ (by decide)).1 (by decide),
   ((adjust_part_quantity_spec ⟨[], [], [⟨1, "P-1", 1000, 3, 5⟩], [], []⟩ 1
      (-3) ⟨1, "P-1", 1000, 3, 5⟩ (by decide)).2 (by decide)).2⟩

/-- C5: a caller whose identity differs from the target customer id gets
the forbidden outcome from both update and delete; forbidden is a
different outcome from not-found; and update or delete of the caller's
own existing record is never forbidden. -/
theorem customer_ownership_spec (customers : List Customer)
    (cur cid : Nat) (body_ok : Bool) :
    (cur ≠ cid →
      update_customer customers cur cid body_ok = .forbidden ∧
      delete_customer customers cur cid = .forbidden) ∧
    (CustomerOutcome.forbidden ≠ CustomerOutcome.notFound) ∧
    (cur = cid →
      (customers.find? (fun c => c.customer_id == cid)).isSome →
      update_customer customers cur cid body_ok ≠ .forbidden ∧
      delete_customer customers cur cid ≠ .forbidden) := by
  refine ⟨fun h => ⟨?_, ?_⟩, by simp, fun h hex => ⟨?_, ?_⟩⟩
  · simp [update_customer, h]
  · simp [delete_customer, h]
  · subst h
    rcases Option.isSome_iff_exists.mp hex with ⟨c, hc⟩
    cases body_ok <;> simp [update_customer, hc]
  · subst h
    rcases Option.isSome_iff_exists.mp hex with ⟨c, hc⟩
    simp [delete_customer, hc]

/-- C5 witness: with the single customer id 1, caller 2 is forbidden to
update or delete customer 1, and caller 1 is not. -/
theorem customer_ownership_spec_witness :
    update_customer [⟨1, "a@x.com", "H"⟩] 2 1 true = .forbidden ∧
    delete_customer [⟨1, "a@x.com", "H"⟩] 2 1 = .forbidden ∧
    update_customer [⟨1, "a@x.com", "H"⟩] 1 1 true ≠ .forbidden ∧
    delete_customer [⟨1, "a@x.com", "H"⟩] 1 1 ≠ .forbidden :=
  ⟨((customer_ownership_spec [⟨1, "a@x.com", "H"⟩] 2 1 true).1
      (by decide)).1,
   ((customer_ownership_spec [⟨1, "a@x.com", "H"⟩] 2 1 true).1
      (by decide)).2,
   ((customer_ownership_spec [⟨1, "a@x.com", "H"⟩] 1 1 true).2.2 rfl
      (by decide)).1,
   ((customer_ownership_spec [⟨1, "a@x.com", "H"⟩] 1 1 true).2.2 rfl
      (by decide)).2⟩

/-- C6: a login whose email matches no customer and a login whose email
matches a customer but whose password fails the hash check produce the
same response: the one generic invalid-credentials error, so the response
does not reveal which case occurred. -/
theorem login_indistinguishable (customers : List Customer)
    (check : String → String → Bool) (e1 p1 e2 p2 : String) (c : Customer)
    (h1 : customers.find? (fun x => x.email == e1) = none)
    (h2 : customers.find? (fun x => x.email == e2) = some c)
    (h3 : check c.password_hash p2 = false) :
    login customers check e1 p1 = login customers check e2 p2 ∧
    login customers check e1 p1 =
      .invalidCredentials "Invalid email or password" 401 := by
  simp [login, h1, h2, h3]

/-- C6 witness: concrete store with one customer and a hash check that
rejects; unknown email and wrong password yield the identical generic
error response. -/
theorem login_indistinguishable_witness :
    login [⟨1, "a@x.com", "H"⟩] (fun _ _ => false) "b@x.com" "pw1" =
      login [⟨1, "a@x.com", "H"⟩] (fun _ _ => false) "a@x.com" "pw2" ∧
    login [⟨1, "a@x.com", "H"⟩] (fun _ _ => false) "b@x.com" "pw1" =
      .invalidCredentials "Invalid email or password" 401 :=
  login_indistinguishable [⟨1, "a@x.com", "H"⟩] (fun _ _ => false)
    "b@x.com" "pw1" "a@x.com" "pw2" ⟨1, "a@x.com", "H"⟩
    (by decide) (by decide) rfl

/-- C8: for every TicketPart the total cost is the base cost
(quantity_used × unit_cost_cents in currency units) plus
markup_percentage percent of that base, rounded to two decimal places —
the source method agrees with that formula stated independently — and at
quantity_used = 2, unit_cost_cents = 1000, markup_percentage = 30 the
total cost is 26.00. -/
theorem get_total_cost_spec :
    (∀ tp : TicketPart, tp.get_total_cost = specTotalCost tp) ∧
    TicketPart.get_total_cost ⟨1, 1, 2, 1000, 30, none, none⟩ = 26 := by
  constructor
  · intro tp
    simp only [TicketPart.get_total_cost, specTotalCost]
    congr 1
    push_cast
    ring
  · norm_num [TicketPart.get_total_cost, pyRound2, pyRoundInt]

/-- C9: a vehicle created through the customer-scoped route always
carries the customer id of the URL path: the handler overwrites the
payload's customer_id with the path parameter, so the created vehicle's
customer_id equals the path id and the whole call result is independent
of the payload's customer_id value. -/
theorem create_vehicle_path_customer_id (customers : List Customer)
    (vehicles : List Vehicle) (cur cid : Nat) (payload : VehiclePayload) :
    (∀ v vehicles2,
      create_vehicle customers vehicles cur cid payload =
        (.created v, vehicles2) →
      v.customer_id = cid) ∧
    (∀ x, create_vehicle customers vehicles cur cid
        { payload with customer_id := x } =
      create_vehicle customers vehicles cur cid payload) := by
  constructor
  · intro v vehicles2 h
    simp only [create_vehicle] at h
    repeat' split at h
    all_goals simp_all
    obtain ⟨rfl, rfl⟩ := h
    rfl
  · intro x
    rfl

/-- C9 witness: the payload claims customer 999, but the vehicle created
under the path of customer 7 belongs to customer 7. -/
theorem create_vehicle_path_customer_id_witness :
    (Vehicle.customer_id ⟨1, 7, "VIN1", "Ford", "F150", 2020, "red"⟩) = 7 :=
  (create_vehicle_path_customer_id [⟨7, "c@x.com", "H"⟩] [] 7 7
    ⟨some 999, "VIN1", "Ford", "F150", 2020, "red"⟩).1
    ⟨1, 7, "VIN1", "Ford", "F150", 2020, "red"⟩
    [⟨1, 7, "VIN1", "Ford", "F150", 2020, "red"⟩] (by decide)

lemma add_part_to_ticket_not_ok (db : DB) (tid pid : Nat)
    (body : AttachBody) (r : AttachResult) (db2 : DB)
    (hres : add_part_to_ticket db tid pid body = (r, db2))
    (h : ∀ tp rem, r ≠ AttachResult.ok tp rem) : db2 = db := by
  unfold add_part_to_ticket at hres
  repeat' split at hres
  all_goals injection hres with h1 h2
  all_goals first
    | exact h2.symm
    | exact absurd h1.symm (h _ _)

/-- C2: `add_part_to_ticket` fails on an existing (ticket, part)
association, on quantity_used ≤ 0, and on quantity_used above the current
stock; every non-ok outcome leaves the database unchanged; and a
successful call appends exactly one association whose unit_cost_cents is
the part's current_cost_cents snapshot while decrementing the part's
quantity_in_stock by exactly quantity_used, touching nothing else. -/
theorem add_part_to_ticket_spec (db : DB) (tid pid : Nat)
    (body : AttachBody) (part : Part)
    (ht : db.tickets.contains tid = true)
    (hfind : findPart db.parts pid = some part) :
    (∀ r db2, add_part_to_ticket db tid pid body = (r, db2) →
      (∀ tp rem, r ≠ AttachResult.ok tp rem) → db2 = db) ∧
    ((findTicketPart db.ticketParts tid pid).isSome →
      add_part_to_ticket db tid pid body = (.alreadyAdded, db)) ∧
    (findTicketPart db.ticketParts tid pid = none →
      body.quantity_used ≤ 0 →
      add_part_to_ticket db tid pid body = (.nonPositiveQuantity, db)) ∧
    (findTicketPart db.ticketParts tid pid = none →
      0 < body.quantity_used →
      part.quantity_in_stock < body.quantity_used →
      add_part_to_ticket db tid pid body =
        (.insufficientStock body.quantity_used part.quantity_in_stock,
          db)) ∧
    (∀ tp rem db2,
      add_part_to_ticket db tid pid body = (.ok tp rem, db2) →
      tp.unit_cost_cents = part.current_cost_cents ∧
      db2.ticketParts = db.ticketParts ++
        [⟨tid, pid, body.quantity_used, part.current_cost_cents,
          body.markup_percentage, body.warranty_months,
          body.installed_by_mechanic_id⟩] ∧
      findPart db2.parts pid = some
        { part with quantity_in_stock :=
            part.quantity_in_stock - body.quantity_used } ∧
      db2.tickets = db.tickets ∧
      db2.mechanics = db.mechanics ∧
      db2.ticketMechanics = db.ticketMechanics) := by
  have htm : tid ∈ db.tickets := by simpa using ht
  refine ⟨add_part_to_ticket_not_ok db tid pid body, ?_, ?_, ?_, ?_⟩
  · intro hdup
    simp [add_part_to_ticket, htm, hfind, hdup]
  · intro hdup hq
    simp [add_part_to_ticket, htm, hfind, hdup, hq]
  · intro hdup hq hstock
    have hq' : ¬ body.quantity_used ≤ 0 := by omega
    simp [add_part_to_ticket, htm, hfind, hdup, hq', hstock]
  · intro tp rem db2 hres
    unfold add_part_to_ticket at hres
    rw [hfind] at hres
    simp only [ht] at hres
    repeat' split at hres
    all_goals injection hres with h1 h2
    all_goals cases h1
    subst h2
    refine ⟨rfl, rfl, ?_, rfl, rfl, rfl⟩
    rw [findPart_updateFirstPart db.parts pid
      (fun p =>
        { p with quantity_in_stock :=
            p.quantity_in_stock - body.quantity_used })
      (fun p => rfl), hfind]
    rfl

/-- C2 witness: on a store with one part of stock 3, attaching quantity 5
is rejected as insufficient with no state change, and attaching quantity
2 appends exactly one association with cost snapshot 1000 and leaves
stock 1. -/
theorem add_part_to_ticket_spec_witness :
    add_part_to_ticket ⟨[10], [], [⟨1, "P-1", 1000, 3, 5⟩], [], []⟩ 10 1
      ⟨5, 30, none, none⟩ =
      (.insufficientStock 5 3,
        ⟨[10], [], [⟨1, "P-1", 1000, 3, 5⟩], [], []⟩) ∧
    findPart
      (add_part_to_ticket ⟨[10], [], [⟨1, "P-1", 1000, 3, 5⟩], [], []⟩ 10 1
        ⟨2, 30, none, none⟩).2.parts 1 = some ⟨1, "P-1", 1000, 1, 5⟩ := by
  constructor
  · exact (add_part_to_ticket_spec
      ⟨[10], [], [⟨1, "P-1", 1000, 3, 5⟩], [], []⟩ 10 1 ⟨5, 30, none, none⟩
      ⟨1, "P-1", 1000, 3, 5⟩ (by decide) (by decide)).2.2.2.1 (by decide)
      (by decide) (by decide)
  · exact ((add_part_to_ticket_spec
      ⟨[10], [], [⟨1, "P-1", 1000, 3, 5⟩], [], []⟩ 10 1 ⟨2, 30, none, none⟩
      ⟨1, "P-1", 1000, 3, 5⟩ (by decide) (by decide)).2.2.2.2
      ⟨10, 1, 2, 1000, 30, none, none⟩ 1
      ⟨[10], [], [⟨1, "P-1", 1000, 1, 5⟩], [],
        [⟨10, 1, 2, 1000, 30, none, none⟩]⟩ (by decide)).2.2.1

lemma adjust_preserves_nonneg (db : DB) (pid : Nat) (adj : Int)
    (h : ∀ p ∈ db.parts, 0 ≤ p.quantity_in_stock) :
    ∀ p ∈ (adjust_part_quantity db pid adj).2.parts,
      0 ≤ p.quantity_in_stock := by
  unfold adjust_part_quantity
  repeat' split
  all_goals intro p hp
  all_goals try exact h p hp
  rename_i part heq hneg
  have hp2 : p ∈ updateFirstPart db.parts pid
      (fun q =>
        { q with quantity_in_stock := part.quantity_in_stock + adj }) := hp
  rcases mem_updateFirstPart hp2 with h1 | ⟨q, hfq, rfl⟩
  · exact h p h1
  · show 0 ≤ part.quantity_in_stock + adj
    omega

lemma attach_preserves_nonneg (db : DB) (tid pid : Nat) (body : AttachBody)
    (h : ∀ p ∈ db.parts, 0 ≤ p.quantity_in_stock) :
    ∀ p ∈ (add_part_to_ticket db tid pid body).2.parts,
      0 ≤ p.quantity_in_stock := by
  unfold add_part_to_ticket
  repeat' split
  all_goals intro p hp
  all_goals try exact h p hp
  rename_i part heq hdup hq hstock hmech
  have hp2 : p ∈ updateFirstPart db.parts pid
      (fun q =>
        { q with quantity_in_stock :=
            q.quantity_in_stock - body.quantity_used }) := hp
  rcases mem_updateFirstPart hp2 with h1 | ⟨q, hfq, rfl⟩
  · exact h p h1
  · rw [heq] at hfq
    injection hfq with hq2
    subst hq2
    show 0 ≤ part.quantity_in_stock - body.quantity_used
    omega

lemma applyOp_preserves_nonneg (db : DB) (op : InvOp)
    (h : ∀ p ∈ db.parts, 0 ≤ p.quantity_in_stock) :
    ∀ p ∈ (applyOp db op).parts, 0 ≤ p.quantity_in_stock := by
  cases op with
  | adjust pid adj => exact adjust_preserves_nonneg db pid adj h
  | attach tid pid body => exact attach_preserves_nonneg db tid pid body h

/-- C1: starting from a state whose parts all have non-negative stock,
any sequence of adjust-quantity and attach-part-to-ticket calls — the
failed ones leaving the state untouched, the successful ones mutating it
— keeps every part's quantity_in_stock ≥ 0. -/
theorem stock_never_negative (db : DB) (ops : List InvOp)
    (h : ∀ p ∈ db.parts, 0 ≤ p.quantity_in_stock) :
    ∀ p ∈ (applyOps db ops).parts, 0 ≤ p.quantity_in_stock := by
  induction ops generalizing db with
  | nil => exact h
  | cons op rest ih =>
    exact ih (applyOp db op) (applyOp_preserves_nonneg db op h)

/-- C1 witness: a concrete run — restock by 4, consume 5 through a
ticket, then an over-consuming adjustment that gets rejected — ends with
the part's stock still non-negative. -/
theorem stock_never_negative_witness :
    0 ≤ ((applyOps ⟨[10], [], [⟨1, "P-1", 1000, 3, 5⟩], [], []⟩
      [.adjust 1 4, .attach 10 1 ⟨5, 30, none, none⟩,
        .adjust 1 (-10)]).parts.getD 0 ⟨0, "", 0, 0, 0⟩).quantity_in_stock :=
  stock_never_negative ⟨[10], [], [⟨1, "P-1", 1000, 3, 5⟩], [], []⟩
    [.adjust 1 4, .attach 10 1 ⟨5, 30, none, none⟩, .adjust 1 (-10)]
    (by decide) _ (by decide)

/-! Helper lemmas about the two loops of `edit_ticket_mechanics`. -/

lemma countP_eraseP_le_one {α : Type} (p : α → Bool) :
    ∀ l : List α, l.countP p ≤ 1 → (l.eraseP p).countP p = 0
  | [], _ => by simp
  | a :: l, h => by
    by_cases ha : p a
    · rw [List.eraseP_cons_of_pos ha]
      rw [List.countP_cons_of_pos p l ha] at h
      omega
    · rw [List.eraseP_cons_of_neg ha, List.countP_cons_of_neg p _ ha]
      rw [List.countP_cons_of_neg p l ha] at h
      exact countP_eraseP_le_one p l h

lemma removePhase_fst_sublist (tid : Nat) :
    ∀ (ids : List Nat) (tms : List TicketMechanic),
      (removePhase tms tid ids).1.Sublist tms
  | [], tms => List.Sublist.refl tms
  | a :: rest, tms => by
    simp only [removePhase]
    cases hf : findTicketMechanic tms tid a with
    | some tm =>
      exact (removePhase_fst_sublist tid rest _).trans
        (List.eraseP_sublist _)
    | none => exact removePhase_fst_sublist tid rest tms

lemma removePhase_countP_zero (tid m : Nat) :
    ∀ (ids : List Nat) (tms : List TicketMechanic), m ∈ ids →
      tms.countP
        (fun tm => tm.ticket_id == tid && tm.mechanic_id == m) ≤ 1 →
      ((removePhase tms tid ids).1).countP
        (fun tm => tm.ticket_id == tid && tm.mechanic_id == m) = 0
  | [], _, hmem, _ => absurd hmem (List.not_mem_nil m)
  | a :: rest, tms, hmem, hle => by
    by_cases ham : a = m
    · subst ham
      cases hf : findTicketMechanic tms tid a with
      | some tm =>
        simp only [removePhase, hf]
        have h0 : (eraseTicketMechanic tms tid a).countP
            (fun tm => tm.ticket_id == tid && tm.mechanic_id == a) = 0 :=
          countP_eraseP_le_one _ tms hle
        have hsub := (removePhase_fst_sublist tid rest
          (eraseTicketMechanic tms tid a)).countP_le
          (fun tm => tm.ticket_id == tid && tm.mechanic_id == a)
        omega
      | none =>
        simp only [removePhase, hf]
        have h0 : tms.countP
            (fun tm => tm.ticket_id == tid && tm.mechanic_id == a) = 0 :=
          List.countP_eq_zero.mpr (List.find?_eq_none.mp hf)
        have hsub := (removePhase_fst_sublist tid rest tms).countP_le
          (fun tm => tm.ticket_id == tid && tm.mechanic_id == a)
        omega
    · have hmem2 : m ∈ rest := by
        rcases List.mem_cons.mp hmem with h | h
        · exact absurd h.symm ham
        · exact h
      cases hf : findTicketMechanic tms tid a with
      | some tm =>
        simp only [removePhase, hf]
        exact removePhase_countP_zero tid m rest _ hmem2
          (le_trans ((List.eraseP_sublist tms).countP_le _) hle)
      | none =>
        simp only [removePhase, hf]
        exact removePhase_countP_zero tid m rest tms hmem2 hle

lemma addPhase_mem_mono (mechs : List Mechanic) (tid : Nat) (role : String)
    (mw : Int) :
    ∀ (ids : List Nat) (tms : List TicketMechanic) (x : TicketMechanic),
      x ∈ tms → x ∈ (addPhase mechs tms tid role mw ids).1
  | [], _, _, hx => hx
  | a :: rest, tms, x, hx => by
    simp only [addPhase]
    split
    · exact addPhase_mem_mono mechs tid role mw rest tms x hx
    · split
      · exact addPhase_mem_mono mechs tid role mw rest tms x hx
      · exact addPhase_mem_mono mechs tid role mw rest _ x
          (List.mem_append_left _ hx)

lemma addPhase_adds (mechs : List Mechanic) (tid m : Nat) (role : String)
    (mw : Int) :
    ∀ (ids : List Nat) (tms : List TicketMechanic), m ∈ ids →
      (mechs.find? (fun x => x.mechanic_id == m)).isSome →
      tms.countP
        (fun tm => tm.ticket_id == tid && tm.mechanic_id == m) = 0 →
      (⟨tid, m, role, mw⟩ : TicketMechanic) ∈
        (addPhase mechs tms tid role mw ids).1
  | [], _, hmem, _, _ => absurd hmem (List.not_mem_nil m)
  | a :: rest, tms, hmem, hmech, h0 => by
    by_cases ham : a = m
    · subst ham
      obtain ⟨mm, hmm⟩ := Option.isSome_iff_exists.mp hmech
      have hnone : findTicketMechanic tms tid a = none :=
        List.find?_eq_none.mpr (List.countP_eq_zero.mp h0)
      simp only [addPhase, hmm, Option.isNone_some, hnone,
        Option.isSome_none, Bool.false_eq_true, if_false]
      exact addPhase_mem_mono mechs tid role mw rest _ _
        (List.mem_append_right _ (List.mem_singleton_self _))
    · have hmem2 : m ∈ rest := by
        rcases List.mem_cons.mp hmem with h | h
        · exact absurd h.symm ham
        · exact h
      simp only [addPhase]
      split
      · exact addPhase_adds mechs tid m role mw rest tms hmem2 hmech h0
      · split
        · exact addPhase_adds mechs tid m role mw rest tms hmem2 hmech h0
        · refine addPhase_adds mechs tid m role mw rest _ hmem2 hmech ?_
          rw [List.countP_append, h0]
          simp [ham]

lemma edit_ticket_mechanics_eq (db : DB) (tid : Nat) (body : EditBody)
    (ht : db.tickets.contains tid = true) :
    edit_ticket_mechanics db tid body =
      (.ok
        (addPhase db.mechanics
          (removePhase db.ticketMechanics tid body.remove_ids).1 tid
          body.role body.minutes_worked body.add_ids).2.1
        (removePhase db.ticketMechanics tid body.remove_ids).2.1
        ((removePhase db.ticketMechanics tid body.remove_ids).2.2 ++
          (addPhase db.mechanics
            (removePhase db.ticketMechanics tid body.remove_ids).1 tid
            body.role body.minutes_worked body.add_ids).2.2),
        { db with ticketMechanics :=
          (addPhase db.mechanics
            (removePhase db.ticketMechanics tid body.remove_ids).1 tid
            body.role body.minutes_worked body.add_ids).1 }) := by
  unfold edit_ticket_mechanics
  rw [if_neg (not_not_intro ht)]

/-- C4: once the ticket exists, a batch edit always reports overall
success; in the concrete scenario with add_ids [5] (mechanic 5 existing
and unassigned) and remove_ids [999] (not assigned), the valid add is
applied — the (ticket, 5) association is created and reported in
added_mechanics — while the invalid removal only contributes an entry to
the response's error list. -/
theorem edit_ticket_mechanics_partial_success (db : DB) (tid : Nat)
    (body : EditBody) (role : String) (mw : Int)
    (ht : db.tickets.contains tid = true) :
    (∃ added removed errors db2,
      edit_ticket_mechanics db tid body = (.ok added removed errors, db2)) ∧
    ((db.mechanics.find? (fun m => m.mechanic_id == 5)).isSome →
      findTicketMechanic db.ticketMechanics tid 5 = none →
      findTicketMechanic db.ticketMechanics tid 999 = none →
      ∃ db2,
        edit_ticket_mechanics db tid ⟨[5], [999], role, mw⟩ =
          (.ok [5] [] ["Mechanic 999 is not assigned to this ticket"],
            db2) ∧
        (⟨tid, 5, role, mw⟩ : TicketMechanic) ∈ db2.ticketMechanics) := by
  constructor
  · exact ⟨_, _, _, _, edit_ticket_mechanics_eq db tid body ht⟩
  · intro hm5 h5 h999
    obtain ⟨m5, hm5eq⟩ := Option.isSome_iff_exists.mp hm5
    have hrem : removePhase db.ticketMechanics tid [999] =
        (db.ticketMechanics, [],
          ["Mechanic 999 is not assigned to this ticket"]) := by
      simp only [removePhase, h999]
      rfl
    have hadd : addPhase db.mechanics db.ticketMechanics tid role mw [5] =
        (db.ticketMechanics ++ [⟨tid, 5, role, mw⟩], [5], []) := by
      simp [addPhase, hm5eq, h5]
    have heq0 := edit_ticket_mechanics_eq db tid ⟨[5], [999], role, mw⟩ ht
    simp only [hrem, hadd, List.append_nil] at heq0
    exact ⟨{ db with ticketMechanics :=
        db.ticketMechanics ++ [⟨tid, 5, role, mw⟩] }, heq0,
      List.mem_append_right _ (List.mem_singleton_self _)⟩

/-- C4 witness: the concrete scenario of the claim on a one-ticket,
one-mechanic store: the response reports added [5] and one error entry
for 999, and the (10, 5) association exists afterwards. -/
theorem edit_ticket_mechanics_partial_success_witness :
    (edit_ticket_mechanics
      ⟨[10], [⟨5, "A", "a@x.com", "5", 100, true⟩], [], [], []⟩ 10
      ⟨[5], [999], "Technician", 0⟩).1 =
      .ok [5] [] ["Mechanic 999 is not assigned to this ticket"] ∧
    (⟨10, 5, "Technician", 0⟩ : TicketMechanic) ∈
      (edit_ticket_mechanics
        ⟨[10], [⟨5, "A", "a@x.com", "5", 100, true⟩], [], [], []⟩ 10
        ⟨[5], [999], "Technician", 0⟩).2.ticketMechanics := by
  obtain ⟨db2, heq, hmem⟩ :=
    (edit_ticket_mechanics_partial_success
      ⟨[10], [⟨5, "A", "a@x.com", "5", 100, true⟩], [], [], []⟩ 10
      ⟨[5], [999], "Technician", 0⟩ "Technician" 0 (by decide)).2
      (by decide) (by decide) (by decide)
  rw [heq]
  exact ⟨rfl, hmem⟩

/-- C10: in a batch edit, the remove list is processed before the add
list, so a mechanic id appearing in both lists that is currently assigned
ends the call assigned to the ticket with the role and minutes_worked of
the batch request. -/
theorem edit_remove_before_add (db : DB) (tid m : Nat) (body : EditBody)
    (ht : db.tickets.contains tid = true)
    (hm : (db.mechanics.find? (fun x => x.mechanic_id == m)).isSome)
    (hrem : m ∈ body.remove_ids) (hadd : m ∈ body.add_ids)
    (huniq : db.ticketMechanics.countP
        (fun tm => tm.ticket_id == tid && tm.mechanic_id == m) ≤ 1) :
    ∃ added removed errors db2,
      edit_ticket_mechanics db tid body = (.ok added removed errors, db2) ∧
      (⟨tid, m, body.role, body.minutes_worked⟩ : TicketMechanic)
        ∈ db2.ticketMechanics := by
  refine ⟨_, _, _, _, edit_ticket_mechanics_eq db tid body ht, ?_⟩
  exact addPhase_adds db.mechanics tid m body.role body.minutes_worked
    body.add_ids _ hadd hm
    (removePhase_countP_zero tid m body.remove_ids db.ticketMechanics
      hrem huniq)

/-- C10 witness: mechanic 5, assigned with role "Helper" and 30 minutes,
appears in both lists of the batch; after the call it is assigned with
the batch's role "Lead" and 45 minutes. -/
theorem edit_remove_before_add_witness :
    (⟨10, 5, "Lead", 45⟩ : TicketMechanic) ∈
      (edit_ticket_mechanics
        ⟨[10], [⟨5, "A", "a@x.com", "5", 100, true⟩], [],
          [⟨10, 5, "Helper", 30⟩], []⟩ 10
        ⟨[5], [5], "Lead", 45⟩).2.ticketMechanics := by
  obtain ⟨a, r, e, db2, heq, hmem⟩ :=
    edit_remove_before_add
      ⟨[10], [⟨5, "A", "a@x.com", "5", 100, true⟩], [],
        [⟨10, 5, "Helper", 30⟩], []⟩ 10 5 ⟨[5], [5], "Lead", 45⟩
      (by decide) (by decide) (by decide) (by decide) (by decide)
  rw [heq]
  exact hmem

/-! Helper lemmas for the activity comparator and the concrete sort. -/

lemma activityLe_trans (tms : List TicketMechanic) (order : String) :
    ∀ a b c : Mechanic, activityLe tms order a b → activityLe tms order b c →
      activityLe tms order a c := by
  intro a b c hab hbc
  unfold activityLe at *
  by_cases h : (order == "desc") = true <;> simp [h] at * <;> omega

lemma activityLe_total (tms : List TicketMechanic) (order : String) :
    ∀ a b : Mechanic, activityLe tms order a b || activityLe tms order b a := by
  intro a b
  unfold activityLe
  by_cases h : (order == "desc") = true <;> simp [h] <;> omega

lemma desc_perm_315 : ∀ l : List ℕ, l.Perm [3, 1, 5] →
    l.Pairwise (fun a b => b ≤ a) → l = [5, 3, 1]
  | [], hp, _ => by simpa using hp.length_eq
  | [_], hp, _ => by simpa using hp.length_eq
  | [_, _], hp, _ => by simpa using hp.length_eq
  | _ :: _ :: _ :: _ :: _, hp, _ => by
    have := hp.length_eq
    simp at this
  | [a, b, c], hp, hs => by
    have ha : a ∈ [3, 1, 5] := hp.mem_iff.mp (by simp)
    have hb : b ∈ [3, 1, 5] := hp.mem_iff.mp (by simp)
    have hc : c ∈ [3, 1, 5] := hp.mem_iff.mp (by simp)
    simp only [List.mem_cons, List.not_mem_nil, or_false] at ha hb hc
    obtain rfl | rfl | rfl := ha <;> obtain rfl | rfl | rfl := hb <;>
      obtain rfl | rfl | rfl := hc <;>
        first
          | rfl
          | exact absurd hp (by decide)
          | exact absurd hs (by decide)

/-- C7: the by-activity listing’s sort, applied after the optional
active-only filter, returns a permutation of the loaded mechanics that is
ordered by association count — descending for order "desc" (the default),
ascending otherwise — with mechanics of equal count kept in load order
(stability), and each response entry carries its mechanic's computed
ticket_count; with counts [3, 1, 5] the descending result's counts are
[5, 3, 1] whatever the input order. -/
theorem mechanics_by_activity_spec (mechanics : List Mechanic)
    (tms : List TicketMechanic) (order : String) (active_only : Bool) :
    (sortMechanicsByActivity mechanics tms order active_only).Perm
      (if active_only then mechanics.filter (fun m => m.is_active)
        else mechanics) ∧
    (order = "desc" →
      (sortMechanicsByActivity mechanics tms order active_only).Pairwise
        (fun a b => ticketCount tms b ≤ ticketCount tms a)) ∧
    (order ≠ "desc" →
      (sortMechanicsByActivity mechanics tms order active_only).Pairwise
        (fun a b => ticketCount tms a ≤ ticketCount tms b)) ∧
    (∀ a b : Mechanic, ticketCount tms a = ticketCount tms b →
      List.Sublist [a, b]
        (if active_only then mechanics.filter (fun m => m.is_active)
          else mechanics) →
      List.Sublist [a, b]
        (sortMechanicsByActivity mechanics tms order active_only)) ∧
    (get_mechanics_by_activity mechanics tms order active_only =
      (sortMechanicsByActivity mechanics tms order active_only).map
        (fun m => ⟨m.mechanic_id, m.full_name, m.email, m.phone, m.salary,
          m.is_active, ticketCount tms m⟩)) ∧
    ((mechanics.map (ticketCount tms)).Perm [3, 1, 5] →
      (sortMechanicsByActivity mechanics tms "desc" false).map
        (ticketCount tms) = [5, 3, 1]) := by
  refine ⟨?_, ?_, ?_, ?_, rfl, ?_⟩
  · exact List.mergeSort_perm _ _
  · intro h
    subst h
    refine List.Pairwise.imp ?_
      (List.sorted_mergeSort (activityLe_trans tms "desc")
        (activityLe_total tms "desc") _)
    intro a b hab
    simpa [activityLe] using hab
  · intro h
    have hfalse : (order == "desc") = false := by
      simpa using h
    refine List.Pairwise.imp ?_
      (List.sorted_mergeSort (activityLe_trans tms order)
        (activityLe_total tms order) _)
    intro a b hab
    simpa [activityLe, hfalse] using hab
  · intro a b hcount hsub
    refine List.pair_sublist_mergeSort (activityLe_trans tms order)
      (activityLe_total tms order) ?_ hsub
    unfold activityLe
    split <;> simp [hcount]
  · intro hp
    have hperm : ((sortMechanicsByActivity mechanics tms "desc" false).map
        (ticketCount tms)).Perm [3, 1, 5] :=
      ((List.mergeSort_perm mechanics (activityLe tms "desc")).map
        (ticketCount tms)).trans hp
    have hsorted : ((sortMechanicsByActivity mechanics tms "desc"
        false).map (ticketCount tms)).Pairwise (fun a b => b ≤ a) := by
      refine List.Pairwise.map (ticketCount tms) ?_
        (List.sorted_mergeSort (activityLe_trans tms "desc")
          (activityLe_total tms "desc") mechanics)
      intro a b hab
      simpa [activityLe] using hab
    exact desc_perm_315 _ hperm hsorted

/-- C7 witness: three mechanics with association counts 3, 1 and 5; the
descending listing orders their counts as [5, 3, 1]. -/
theorem mechanics_by_activity_spec_witness :
    (sortMechanicsByActivity
      [⟨1, "a", "", "", 0, true⟩, ⟨2, "b", "", "", 0, true⟩,
        ⟨3, "c", "", "", 0, true⟩]
      [⟨1, 1, "r", 0⟩, ⟨2, 1, "r", 0⟩, ⟨3, 1, "r", 0⟩, ⟨1, 2, "r", 0⟩,
        ⟨1, 3, "r", 0⟩, ⟨2, 3, "r", 0⟩, ⟨3, 3, "r", 0⟩, ⟨4, 3, "r", 0⟩,
        ⟨5, 3, "r", 0⟩]
      "desc" false).map
      (ticketCount
        [⟨1, 1, "r", 0⟩, ⟨2, 1, "r", 0⟩, ⟨3, 1, "r", 0⟩, ⟨1, 2, "r", 0⟩,
          ⟨1, 3, "r", 0⟩, ⟨2, 3, "r", 0⟩, ⟨3, 3, "r", 0⟩, ⟨4, 3, "r", 0⟩,
          ⟨5, 3, "r", 0⟩]) = [5, 3, 1] :=
  (mechanics_by_activity_spec
    [⟨1, "a", "", "", 0, true⟩, ⟨2, "b", "", "", 0, true⟩,
      ⟨3, "c", "", "", 0, true⟩]
    [⟨1, 1, "r", 0⟩, ⟨2, 1, "r", 0⟩, ⟨3, 1, "r", 0⟩, ⟨1, 2, "r", 0⟩,
      ⟨1, 3, "r", 0⟩, ⟨2, 3, "r", 0⟩, ⟨3, 3, "r", 0⟩, ⟨4, 3, "r", 0⟩,
      ⟨5, 3, "r", 0⟩]
    "desc" false).2.2.2.2.2 (by decide)

end MechShop
